import Mathlib

/-!
Verification of the AWS re:Invent scheduling engine.

This file is a shallow embedding, in Lean 4, of the scheduling core of the
repository (the modules `scheduler/scheduling_algorithm.py`,
`scheduler/conflict_resolver.py`, `scheduler/backup_generator.py`, the
venue-convenience part of `processor/session_scorer.py`, and the relevant
constants of `config.py`), together with theorems settling the behavioural
claims made about those modules.

Modelling conventions:
* Python dicts for sessions become a `Session` structure holding exactly the
  fields the scheduling core reads; a field that may be absent or `None`
  becomes an `Option`.  `dict.get(k, d)` becomes `Option.getD`.
* Python `float` scores are modelled as exact rationals (`Rat`).
* `datetime.strptime(s, "%H:%M")` becomes `parseTime : String → Option Nat`
  returning minutes after midnight; a `try/except` around parsing becomes a
  `match` whose failure branch returns the Python handler's value.
* Python's stable `sort` / `sorted` becomes `List.insertionSort`, which is
  stable for the total preorders used here, hence produces the same list.
* Statistic fields that no verified claim reads (average score, venue
  distribution, keyword coverage maps) are omitted from the statistics
  records; every field a claim depends on is modelled.
* String helpers are written structurally over `List Char` so that concrete
  runs of the pipeline reduce inside the kernel.
-/

namespace ReInvent

/-! ### String and time primitives -/

/-- Lexicographic strict comparison of character lists, mirroring Python's
string `<` (code-point order). -/
def listLtChars : List Char → List Char → Bool
  | [], [] => false
  | [], _ :: _ => true
  | _ :: _, [] => false
  | a :: as, b :: bs => if a.val < b.val then true else if b.val < a.val then false else listLtChars as bs

/-- Python string `<`. -/
def strLt (a b : String) : Bool := listLtChars a.data b.data

/-- Python string `<=` (total order, so `a <= b` iff `a < b` or `a = b`). -/
def strLe (a b : String) : Bool := strLt a b || a == b

/-- Does `hay` start with `needle` (character lists)? -/
def listStartsWith : List Char → List Char → Bool
  | [], _ => true
  | _ :: _, [] => false
  | a :: as, b :: bs => a == b && listStartsWith as bs

/-- Python's substring test `needle in hay` on character lists. -/
def listHasSub (needle : List Char) : List Char → Bool
  | [] => needle.isEmpty
  | c :: rest => listStartsWith needle (c :: rest) || listHasSub needle rest

/-- Python `needle in hay` for strings. -/
def strContains (hay sub : String) : Bool := listHasSub sub.data hay.data

/-- Python `str.lower()`, as a character list. -/
def lowerChars (s : String) : List Char := s.data.map Char.toLower

/-- Digit-string to number (`none` when a non-digit appears). -/
def digitsToNat : List Char → Option Nat
  | [] => none
  | cs => go cs 0
where go : List Char → Nat → Option Nat
  | [], acc => some acc
  | c :: rest, acc => if c.isDigit then go rest (acc * 10 + (c.toNat - 48)) else none

/-- Split a character list at each colon, like Python `s.split(":")`. -/
def splitCols : List Char → List (List Char)
  | [] => [[]]
  | c :: rest =>
    let r := splitCols rest
    if c = ':' then [] :: r
    else
      match r with
      | h :: t => (c :: h) :: t
      | [] => [[c]]

/-- `datetime.strptime(s, "%H:%M")`, as minutes after midnight.  `%H` and
`%M` each accept one or two digits, bounded by 23 and 59; anything else
(extra fields, stray characters, out-of-range values) raises in Python and
is `none` here. -/
def parseTime (s : String) : Option Nat :=
  match splitCols s.data with
  | [h, m] =>
    match digitsToNat h, digitsToNat m with
    | some hv, some mv =>
      if h.length ≤ 2 && m.length ≤ 2 && hv < 24 && mv < 60 then some (hv * 60 + mv) else none
    | _, _ => none
  | _ => none

/-- Decimal digits of a number (fuel-based so it reduces in the kernel). -/
def natToCharsAux : Nat → Nat → List Char
  | 0, _ => []
  | fuel + 1, n =>
    if n < 10 then [Char.ofNat (48 + n)]
    else natToCharsAux fuel (n / 10) ++ [Char.ofNat (48 + n % 10)]

/-- Decimal rendering of a number, like Python `str(n)` for naturals. -/
def natToStr (n : Nat) : String := String.mk (natToCharsAux (n + 1) n)

/-! ### Data model -/

/-- A session record, holding the fields the scheduling core reads.
`score` is the total score attached by the scorer stage (`dict.get('score', 0)`
reads it with default 0). -/
structure Session where
  sessionId : Option String
  title : String
  date : Option String
  startTime : Option String
  endTime : Option String
  venue : Option String
  keywordsMatched : List String
  score : Option Rat
deriving Repr, DecidableEq

/-- `dict.get(k) or ''`-style read of an optional string. -/
def getStr (o : Option String) : String := o.getD ""

/-- Python truthiness of an optional string (`None` and `''` are falsy). -/
def truthy (o : Option String) : Bool := !(getStr o == "")

/-- Python truthiness of a string. -/
def strTruthy (s : String) : Bool := !(s == "")

/-- `session.get('score', 0)`. -/
def scoreOf (s : Session) : Rat := s.score.getD 0

/-- The configuration constants of `config.py` consumed by the scheduler:
the lunch window (parsed to minutes at scheduler construction), the cap on
slots per day, and the minimum backup count. -/
structure Config where
  lunchStart : Nat
  lunchEnd : Nat
  maxSessionsPerDay : Nat
  minBackupSessions : Nat
deriving Repr, DecidableEq

/-- `config.py` defaults: lunch 11:00–13:00, `MAX_SESSIONS_PER_DAY = 8`,
`MIN_BACKUP_SESSIONS = 2`. -/
def defaultConfig : Config :=
  { lunchStart := 660, lunchEnd := 780, maxSessionsPerDay := 8, minBackupSessions := 2 }

/-- A time slot produced by `_generate_time_slots` (buffer fields omitted:
nothing downstream reads them). -/
structure TimeSlot where
  slotId : String
  startTime : String
  endTime : String
  date : String
deriving Repr, DecidableEq

/-- A primary assignment: the session copy annotated with its slot and
scheduled times (`_schedule_primary_sessions`). -/
structure ScheduledSession where
  session : Session
  timeSlot : String
  scheduledStart : String
  scheduledEnd : String
deriving Repr, DecidableEq

/-- A backup candidate copy annotated with its backup score
(`_rank_backup_candidates`). -/
structure BackupEntry where
  session : Session
  backupScore : Rat
deriving Repr, DecidableEq

/-! ### `scheduling_algorithm.py` -/

/-- `SchedulingAlgorithm._times_overlap`: overlap of two parsed ranges,
`False` on any parse failure. -/
def timesOverlap (start1 end1 start2 end2 : String) : Bool :=
  match parseTime start1, parseTime end1, parseTime start2, parseTime end2 with
  | some s1, some e1, some s2, some e2 => decide (s1 < e2 ∧ s2 < e1)
  | _, _, _, _ => false

/-- `SchedulingAlgorithm._is_lunch_time`: does the range overlap the lunch
window?  `False` on any parse failure (the `except` branch). -/
def isLunchTime (cfg : Config) (startTime endTime : String) : Bool :=
  match parseTime startTime, parseTime endTime with
  | some s, some e => decide (s < cfg.lunchEnd ∧ e > cfg.lunchStart)
  | _, _ => false

/-- The `(start_time, end_time)` pairs of the sessions having both fields
populated (truthy), in order. -/
def collectTimes (sessions : List Session) : List (String × String) :=
  sessions.filterMap fun s =>
    if truthy s.startTime && truthy s.endTime then some (getStr s.startTime, getStr s.endTime)
    else none

/-- Python tuple comparison on `(start, end)` string pairs. -/
def pairLe (a b : String × String) : Bool :=
  if strLt a.1 b.1 then true else if strLt b.1 a.1 then false else strLe a.2 b.2

/-- `pairLe` as a relation, for `insertionSort`. -/
def pairLeP (a b : String × String) : Prop := pairLe a b = true

instance : DecidableRel pairLeP := fun a b => inferInstanceAs (Decidable (pairLe a b = true))

/-- The slot-acceptance loop of `_generate_time_slots`: walk the sorted time
ranges, skipping lunch-overlapping ones and ones overlapping an accepted
slot, numbering accepted slots `slot_1`, `slot_2`, …. -/
def slotLoop (cfg : Config) (date : String) : List (String × String) → List TimeSlot → List TimeSlot
  | [], acc => acc
  | (st, en) :: rest, acc =>
    if isLunchTime cfg st en then slotLoop cfg date rest acc
    else if acc.any fun sl => timesOverlap st en sl.startTime sl.endTime then
      slotLoop cfg date rest acc
    else
      slotLoop cfg date rest
        (acc ++ [{ slotId := "slot_" ++ natToStr (acc.length + 1), startTime := st, endTime := en, date := date }])

/-- `SchedulingAlgorithm._generate_time_slots`. -/
def generateTimeSlots (cfg : Config) (sessions : List Session) (date : String) : List TimeSlot :=
  let sessionTimes := collectTimes sessions
  if sessionTimes.isEmpty then []
  else (slotLoop cfg date (List.insertionSort pairLeP sessionTimes) []).take cfg.maxSessionsPerDay

/-- The inner best-candidate scan of `_schedule_primary_sessions`: running
`(best_session, best_score)` state, `best_score` starting at `-1`. -/
def pickLoop (slot : TimeSlot) (used : List (Option String)) :
    List Session → Option Session → Rat → Option Session × Rat
  | [], best, bestScore => (best, bestScore)
  | s :: rest, best, bestScore =>
    if used.contains s.sessionId then pickLoop slot used rest best bestScore
    else if s.startTime == some slot.startTime && s.endTime == some slot.endTime then
      if scoreOf s > bestScore then pickLoop slot used rest (some s) (scoreOf s)
      else pickLoop slot used rest best bestScore
    else pickLoop slot used rest best bestScore

/-- The outer slot loop of `_schedule_primary_sessions`, threading the
accepted list and the used-id set. -/
def primaryLoop (sessions : List Session) :
    List TimeSlot → List ScheduledSession → List (Option String) → List ScheduledSession
  | [], acc, _ => acc
  | slot :: rest, acc, used =>
    match (pickLoop slot used sessions none (-1)).1 with
    | some s =>
      primaryLoop sessions rest
        (acc ++ [{ session := s, timeSlot := slot.slotId, scheduledStart := slot.startTime, scheduledEnd := slot.endTime }])
        (used ++ [s.sessionId])
    | none => primaryLoop sessions rest acc used

/-- `SchedulingAlgorithm._schedule_primary_sessions`. -/
def schedulePrimarySessions (sessions : List Session) (slots : List TimeSlot) : List ScheduledSession :=
  primaryLoop sessions slots [] []

/-! ### `backup_generator.py` -/

/-- `BackupGenerator._times_are_compatible`: both endpoints within the fixed
30-minute tolerance of the slot's; `False` on any parse failure. -/
def timesAreCompatible (sessionStart sessionEnd slotStart slotEnd : String) : Bool :=
  match parseTime sessionStart, parseTime sessionEnd, parseTime slotStart, parseTime slotEnd with
  | some ss, some se, some bs, some be =>
    decide (((ss : Int) - bs).natAbs ≤ 30 ∧ ((se : Int) - be).natAbs ≤ 30)
  | _, _, _, _ => false

/-- `BackupGenerator._session_fits_slot`. -/
def sessionFitsSlot (s : Session) (slotStart slotEnd : String) : Bool :=
  if !(truthy s.startTime && truthy s.endTime) then false
  else timesAreCompatible (getStr s.startTime) (getStr s.endTime) slotStart slotEnd

/-- The filtering loop of `BackupGenerator._find_candidate_sessions`. -/
def candLoop (slotStart slotEnd : String) (excludeIds : List (Option String)) : List Session → List Session
  | [] => []
  | s :: rest =>
    if excludeIds.contains s.sessionId then candLoop slotStart slotEnd excludeIds rest
    else if sessionFitsSlot s slotStart slotEnd then s :: candLoop slotStart slotEnd excludeIds rest
    else candLoop slotStart slotEnd excludeIds rest

/-- `BackupGenerator._find_candidate_sessions`. -/
def findCandidateSessions (all : List Session) (slotStart slotEnd : String)
    (excludeIds : List (Option String)) : List Session :=
  candLoop slotStart slotEnd excludeIds all

/-- `BackupGenerator._calculate_time_compatibility_bonus`. -/
def calculateTimeCompatibilityBonus (s : Session) (slot : TimeSlot) : Rat :=
  if !(truthy s.startTime && truthy s.endTime) then 0
  else
    match parseTime (getStr s.startTime), parseTime (getStr s.endTime),
        parseTime slot.startTime, parseTime slot.endTime with
    | some ss, some se, some bs, some be =>
      let startDiff : Rat := (((ss : Int) - bs).natAbs : Rat)
      let endDiff : Rat := (((se : Int) - be).natAbs : Rat)
      let startBonus := max 0 (2/10 - startDiff / 60 * (1/10))
      let endBonus := max 0 (2/10 - endDiff / 60 * (1/10))
      (startBonus + endBonus) / 2
    | _, _, _, _ => 0

/-- The high-value keyword list of `_calculate_diversity_bonus`. -/
def highValueKeywords : List String := ["ai", "architect", "lakehouse", "devops"]

/-- `BackupGenerator._calculate_diversity_bonus`. -/
def calculateDiversityBonus (s : Session) : Rat :=
  let keywordBonus := min (1/10) ((s.keywordsMatched.length : Rat) * (3/100))
  let highValueBonus :=
    s.keywordsMatched.foldl
      (fun acc kw => if highValueKeywords.any fun hv => hv.data == lowerChars kw then acc + 2/100 else acc) 0
  min (15/100) (keywordBonus + highValueBonus)

/-- The venue-bonus table of `_calculate_venue_bonus`, in dict order. -/
def venueScoresBackup : List (String × Rat) :=
  [("venetian", 1/10), ("palazzo", 1/10), ("wynn", 8/100), ("encore", 8/100),
   ("aria", 6/100), ("bellagio", 6/100), ("caesars", 4/100), ("mirage", 4/100)]

/-- First-match scan of the venue-bonus table (`0.02` when nothing matches). -/
def venueBonusLoop : List (String × Rat) → List Char → Rat
  | [], _ => 2/100
  | (name, bonus) :: rest, venue =>
    if listHasSub name.data venue then bonus else venueBonusLoop rest venue

/-- `BackupGenerator._calculate_venue_bonus`. -/
def calculateVenueBonus (s : Session) : Rat :=
  venueBonusLoop venueScoresBackup (lowerChars (getStr s.venue))

/-- The un-clamped total of `_calculate_backup_score`: `0.7·score` plus the
three bonuses. -/
def calculateBackupScoreRaw (s : Session) (slot : TimeSlot) : Rat :=
  scoreOf s * (7/10) + calculateTimeCompatibilityBonus s slot
    + calculateDiversityBonus s + calculateVenueBonus s

/-- `BackupGenerator._calculate_backup_score`: the total clamped to `1.0`. -/
def calculateBackupScore (s : Session) (slot : TimeSlot) : Rat :=
  min 1 (calculateBackupScoreRaw s slot)

/-- Descending-by-backup-score relation used to rank backups. -/
def backupGe (a b : BackupEntry) : Prop := b.backupScore ≤ a.backupScore

instance : DecidableRel backupGe := fun a b =>
  inferInstanceAs (Decidable (b.backupScore ≤ a.backupScore))

instance : IsTotal BackupEntry backupGe := ⟨fun a b => le_total b.backupScore a.backupScore⟩

instance : IsTrans BackupEntry backupGe := ⟨fun _ _ _ h1 h2 => le_trans h2 h1⟩

/-- `BackupGenerator._rank_backup_candidates`: attach backup scores and sort
descending (Python's stable `sort(reverse=True)`). -/
def rankBackupCandidates (candidates : List Session) (slot : TimeSlot) : List BackupEntry :=
  if candidates.isEmpty then []
  else List.insertionSort backupGe (candidates.map fun c => { session := c, backupScore := calculateBackupScore c slot })

/-- The ids of the primary list, as collected by `generate_backups`. -/
def primaryIdsOf (primary : List ScheduledSession) : List (Option String) :=
  primary.map fun p => p.session.sessionId

/-- Per-slot selection of `generate_backups`: rank the candidates and keep
the top `max(min_backup_sessions, 3)`. -/
def selectedBackups (cfg : Config) (all : List Session) (primaryIds : List (Option String))
    (slot : TimeSlot) : List BackupEntry :=
  (rankBackupCandidates (findCandidateSessions all slot.startTime slot.endTime primaryIds) slot).take
    (max cfg.minBackupSessions 3)

/-- The slot loop of `generate_backups`, building the slot-id-keyed mapping
in slot order. -/
def generateBackupsLoop (cfg : Config) (all : List Session) (primaryIds : List (Option String)) :
    List TimeSlot → List (String × List BackupEntry)
  | [] => []
  | slot :: rest =>
    (slot.slotId, selectedBackups cfg all primaryIds slot) :: generateBackupsLoop cfg all primaryIds rest

/-- `BackupGenerator.generate_backups`. -/
def generateBackups (cfg : Config) (all : List Session) (primary : List ScheduledSession)
    (slots : List TimeSlot) : List (String × List BackupEntry) :=
  generateBackupsLoop cfg all (primaryIdsOf primary) slots

/-! ### `conflict_resolver.py` -/

/-- `ConflictResolver.buffer_minutes`. -/
def bufferMinutes : Nat := 30

/-- `ConflictResolver._sessions_conflict`: buffered-interval overlap,
`False` on any parse failure (the `except` branch). -/
def sessionsConflict (start1 end1 start2 end2 : String) : Bool :=
  match parseTime start1, parseTime end1, parseTime start2, parseTime end2 with
  | some s1, some e1, some s2, some e2 =>
    decide (s1 < e2 + bufferMinutes ∧ s2 < e1 + bufferMinutes)
  | _, _, _, _ => false

/-- Sort key of `_resolve_time_conflicts` and `_optimize_venue_proximity`:
the scheduled start string. -/
def schedLe (a b : ScheduledSession) : Prop := strLe a.scheduledStart b.scheduledStart = true

instance : DecidableRel schedLe := fun a b =>
  inferInstanceAs (Decidable (strLe a.scheduledStart b.scheduledStart = true))

/-- The accept/drop scan of `_resolve_time_conflicts`: sessions with falsy
scheduled times are appended unchecked; a session conflicting with an
already-accepted one is dropped (`_reschedule_session` returns `None`). -/
def resolveLoop : List ScheduledSession → List ScheduledSession → List ScheduledSession
  | acc, [] => acc
  | acc, cur :: rest =>
    if cur.scheduledStart == "" || cur.scheduledEnd == "" then resolveLoop (acc ++ [cur]) rest
    else if acc.any fun prev =>
        sessionsConflict cur.scheduledStart cur.scheduledEnd prev.scheduledStart prev.scheduledEnd then
      resolveLoop acc rest
    else resolveLoop (acc ++ [cur]) rest

/-- `ConflictResolver._resolve_time_conflicts`. -/
def resolveTimeConflicts (sessions : List ScheduledSession) : List ScheduledSession :=
  if sessions.isEmpty then sessions
  else resolveLoop [] (List.insertionSort schedLe sessions)

/-- The `(scheduled_start, scheduled_end)` pairs of the primary sessions
having both populated, collected by `_validate_backup_sessions`. -/
def primaryTimesOf (primary : List ScheduledSession) : List (String × String) :=
  primary.filterMap fun p =>
    if strTruthy p.scheduledStart && strTruthy p.scheduledEnd then
      some (p.scheduledStart, p.scheduledEnd)
    else none

/-- The per-slot filter of `_validate_backup_sessions`: drop backups with
falsy times and backups conflicting (buffered) with any primary time. -/
def validateBackupLoop (primaryTimes : List (String × String)) : List BackupEntry → List BackupEntry
  | [] => []
  | b :: rest =>
    if !(truthy b.session.startTime && truthy b.session.endTime) then
      validateBackupLoop primaryTimes rest
    else if primaryTimes.any fun pt =>
        sessionsConflict (getStr b.session.startTime) (getStr b.session.endTime) pt.1 pt.2 then
      validateBackupLoop primaryTimes rest
    else b :: validateBackupLoop primaryTimes rest

/-- `ConflictResolver._validate_backup_sessions`. -/
def validateBackupSessions (primary : List ScheduledSession)
    (backups : List (String × List BackupEntry)) : List (String × List BackupEntry) :=
  backups.map fun kv => (kv.1, validateBackupLoop (primaryTimesOf primary) kv.2)

/-- The result of `resolve_conflicts` (the `conflicts_resolved` report is
omitted: no verified claim reads it). -/
structure ResolvedSchedule where
  primary : List ScheduledSession
  backups : List (String × List BackupEntry)
deriving Repr

/-- `ConflictResolver.resolve_conflicts`: drop time conflicts, prune
backups against the surviving primaries, then `_optimize_venue_proximity`
(which only re-sorts the primary list by scheduled start and returns the
sessions unchanged). -/
def resolveConflicts (primary : List ScheduledSession)
    (backups : List (String × List BackupEntry)) : ResolvedSchedule :=
  let resolvedPrimary := resolveTimeConflicts primary
  let validatedBackups := validateBackupSessions resolvedPrimary backups
  { primary := List.insertionSort schedLe resolvedPrimary, backups := validatedBackups }

/-! ### Daily and cross-day assembly (`scheduling_algorithm.py`) -/

/-- Descending-by-score relation for the initial stable sort of
`_create_daily_schedule`. -/
def scoreGe (a b : Session) : Prop := scoreOf b ≤ scoreOf a

instance : DecidableRel scoreGe := fun a b => inferInstanceAs (Decidable (scoreOf b ≤ scoreOf a))

/-- The daily statistics of `_calculate_daily_statistics` that downstream
code reads (counts; the score/venue/keyword projections are unread). -/
structure Statistics where
  totalSessions : Nat
  scheduledSessions : Nat
  backupSessions : Nat
deriving Repr, DecidableEq

/-- `SchedulingAlgorithm._calculate_daily_statistics`, count fields. -/
def calculateDailyStatistics (all : List Session) (primary : List ScheduledSession)
    (backups : List (String × List BackupEntry)) : Statistics :=
  { totalSessions := all.length,
    scheduledSessions := primary.length,
    backupSessions := (backups.map fun kv => kv.2.length).sum }

/-- A day's result (`_create_daily_schedule` / the empty-day branch of
`create_schedule`); the constant blocked-times entry is omitted. -/
structure DailySchedule where
  primarySessions : List ScheduledSession
  backupSessions : List (String × List BackupEntry)
  statistics : Statistics
deriving Repr

/-- `SchedulingAlgorithm._create_daily_schedule`. -/
def createDailySchedule (cfg : Config) (sessions : List Session) (date : String) : DailySchedule :=
  let sortedSessions := List.insertionSort scoreGe sessions
  let timeSlots := generateTimeSlots cfg sortedSessions date
  let primary := schedulePrimarySessions sortedSessions timeSlots
  let backups := generateBackups cfg sortedSessions primary timeSlots
  let resolved := resolveConflicts primary backups
  { primarySessions := resolved.primary,
    backupSessions := resolved.backups,
    statistics := calculateDailyStatistics sessions resolved.primary resolved.backups }

/-- The zero-session day emitted by `create_schedule`. -/
def emptyDailySchedule : DailySchedule :=
  { primarySessions := [], backupSessions := [],
    statistics := { totalSessions := 0, scheduledSessions := 0, backupSessions := 0 } }

/-- `_group_sessions_by_date`, read back for one date. -/
def groupSessionsByDate (sessions : List Session) (date : String) : List Session :=
  sessions.filter fun s => s.date == some date

/-- The per-date loop of `create_schedule` (before the summary is added). -/
def createScheduleDays (cfg : Config) (sessions : List Session) :
    List String → List (String × DailySchedule)
  | [] => []
  | d :: rest =>
    let daily := groupSessionsByDate sessions d
    (d, if daily.isEmpty then emptyDailySchedule else createDailySchedule cfg daily d)
      :: createScheduleDays cfg sessions rest

/-- Python's banker's rounding (`round`) to an integer, on rationals. -/
def roundHalfEven (q : Rat) : Int :=
  let f := ⌊q⌋
  let r := q - (f : Rat)
  if r < 1/2 then f else if 1/2 < r then f + 1 else if f % 2 = 0 then f else f + 1

/-- Python `round(q, 1)`. -/
def round1 (q : Rat) : Rat := (roundHalfEven (q * 10) : Rat) / 10

/-- The cross-day summary fields of `_generate_schedule_summary` that the
verified claims read (score/venue/keyword aggregation omitted). -/
structure ScheduleSummary where
  totalConferenceDays : Nat
  totalScheduledSessions : Nat
  totalBackupSessions : Nat
  scheduleEfficiency : Rat
deriving Repr

/-- `SchedulingAlgorithm._generate_schedule_summary`: totals over the non-
`'summary'` entries; `schedule_efficiency` is
`round(total / (len(schedule) - 1) if len(schedule) > 1 else 0, 1)` over the
full mapping as passed in. -/
def generateScheduleSummary (schedule : List (String × DailySchedule)) : ScheduleSummary :=
  let entries := schedule.filter fun kv => !(kv.1 == "summary")
  let totalSessions := (entries.map fun kv => kv.2.statistics.scheduledSessions).sum
  let totalBackups := (entries.map fun kv => kv.2.statistics.backupSessions).sum
  { totalConferenceDays := entries.length,
    totalScheduledSessions := totalSessions,
    totalBackupSessions := totalBackups,
    scheduleEfficiency :=
      round1 (if schedule.length > 1 then (totalSessions : Rat) / ((schedule.length : Rat) - 1) else 0) }

/-- `SchedulingAlgorithm.create_schedule`: the per-date mapping plus the
summary computed from it (the summary is computed before being inserted, so
the mapping it sees holds only the date entries). -/
def createSchedule (cfg : Config) (sessions : List Session) (dates : List String) :
    List (String × DailySchedule) × ScheduleSummary :=
  let days := createScheduleDays cfg sessions dates
  (days, generateScheduleSummary days)

/-! ### `session_scorer.py` (venue component) -/

/-- `SessionScorer.venue_convenience_scores`, in dict order; the two `0.0`
entries carry the source's `# Excluded venue` comment. -/
def venueConvenienceScores : List (String × Rat) :=
  [("venetian", 9/10), ("palazzo", 9/10), ("wynn", 8/10), ("encore", 8/10),
   ("aria", 7/10), ("bellagio", 7/10), ("caesars", 6/10), ("mirage", 6/10),
   ("treasure island", 5/10), ("flamingo", 5/10), ("linq", 4/10), ("paris", 4/10),
   ("bally", 3/10), ("harrah", 3/10), ("rio", 2/10), ("orleans", 2/10),
   ("mgm grand", 0), ("mandalay bay", 0)]

/-- `SessionScorer._score_venue_convenience`: `0.5` for a falsy venue,
otherwise the maximum of `0.5` and the scores of all matching table
entries. -/
def scoreVenueConvenience (s : Session) : Rat :=
  let venue := lowerChars (getStr s.venue)
  if venue.isEmpty then 1/2
  else venueConvenienceScores.foldl
    (fun best nv => if listHasSub nv.1.data venue then max best nv.2 else best) (1/2)

end ReInvent

namespace ReInvent

/-! ### Claim-worded reference definitions

These definitions restate, in the specification's own words, the algorithms
the claims describe; the theorems below compare them with the embedded
source functions. -/

/-- The buffered-overlap test exactly as the specification words it:
`start1 < end2 + buffer AND start2 < end1 + buffer` with a 30-minute
buffer, on parsed times (no claim is made about unparsable strings, which
parse to `none` and yield `false`). -/
def claimBufferedOverlap (s1 e1 s2 e2 : String) : Bool :=
  match parseTime s1, parseTime e1, parseTime s2, parseTime e2 with
  | some a, some b, some c, some d => decide (a < d + 30 ∧ c < b + 30)
  | _, _, _, _ => false

/-- The specification's conflict-resolution scan: walk the start-sorted
list left to right and drop every session whose buffered interval overlaps
an already-accepted session's. -/
def dropConflictingLoop : List ScheduledSession → List ScheduledSession → List ScheduledSession
  | acc, [] => acc
  | acc, cur :: rest =>
    if acc.any fun prev =>
        claimBufferedOverlap cur.scheduledStart cur.scheduledEnd prev.scheduledStart prev.scheduledEnd then
      dropConflictingLoop acc rest
    else dropConflictingLoop (acc ++ [cur]) rest

/-- The specification's conflict-resolution step on a primary list. -/
def dropConflictingSpec (sessions : List ScheduledSession) : List ScheduledSession :=
  dropConflictingLoop [] (List.insertionSort schedLe sessions)

/-- The not-yet-used sessions whose `(start, end)` exactly equals the
slot's, in input order (the specification's candidate set for a slot). -/
def exactMatches (sessions : List Session) (used : List (Option String)) (slot : TimeSlot) :
    List Session :=
  sessions.filter fun s =>
    !used.contains s.sessionId && (s.startTime == some slot.startTime && s.endTime == some slot.endTime)

/-- Highest score, ties to the first encountered: the specification's pick
among exact matches. -/
def argmaxFirst : List Session → Option Session
  | [] => none
  | s :: rest => some (rest.foldl (fun best c => if scoreOf c > scoreOf best then c else best) s)

/-- The specification's primary-assignment loop: per slot, pick the best
exact-time match among unused sessions, mark it used, or leave the slot
unfilled without blocking later slots. -/
def assignPrimaryLoop (sessions : List Session) :
    List TimeSlot → List ScheduledSession → List (Option String) → List ScheduledSession
  | [], acc, _ => acc
  | slot :: rest, acc, used =>
    match argmaxFirst (exactMatches sessions used slot) with
    | some s =>
      assignPrimaryLoop sessions rest
        (acc ++ [{ session := s, timeSlot := slot.slotId, scheduledStart := slot.startTime, scheduledEnd := slot.endTime }])
        (used ++ [s.sessionId])
    | none => assignPrimaryLoop sessions rest acc used

/-- The specification's primary assignment. -/
def assignPrimarySpec (sessions : List Session) (slots : List TimeSlot) : List ScheduledSession :=
  assignPrimaryLoop sessions slots [] []

/-- Time compatibility as the specification words it: both endpoint
distances to the slot's endpoints at most 30 minutes (on parsed times;
unparsable strings are not compatible). -/
def claimTimeCompatible (s : Session) (slotStart slotEnd : String) : Bool :=
  match parseTime (getStr s.startTime), parseTime (getStr s.endTime),
      parseTime slotStart, parseTime slotEnd with
  | some a, some b, some c, some d =>
    decide (((a : Int) - c).natAbs ≤ 30 ∧ ((b : Int) - d).natAbs ≤ 30)
  | _, _, _, _ => false

/-- The specification's slot-acceptance scan over sorted time ranges:
skip a range overlapping the lunch window, skip a range overlapping an
accepted slot, otherwise accept it. -/
def acceptSlotsSpec (cfg : Config) : List (String × String) → List (String × String) → List (String × String)
  | acc, [] => acc
  | acc, p :: rest =>
    if isLunchTime cfg p.1 p.2 then acceptSlotsSpec cfg acc rest
    else if acc.any fun q => timesOverlap p.1 p.2 q.1 q.2 then acceptSlotsSpec cfg acc rest
    else acceptSlotsSpec cfg (acc ++ [p]) rest

/-- The specification's slot builder: collect the populated `(start, end)`
pairs, sort ascending by start (Python compares the pairs), run the
acceptance scan, truncate to `maxSlotsPerDay`. -/
def buildSlotsSpec (cfg : Config) (sessions : List Session) : List (String × String) :=
  (acceptSlotsSpec cfg [] (List.insertionSort pairLeP (collectTimes sessions))).take
    cfg.maxSessionsPerDay

/-- Distinct session ids, the relation of the at-most-one-slot guarantee. -/
def distinctIds (a b : ScheduledSession) : Prop := a.session.sessionId ≠ b.session.sessionId

/-! ### Concrete inputs used by witnesses, counterexamples and evaluations -/

/-- A session with the fields the scheduler reads set explicitly. -/
def mkTimedSession (id st en : String) (sc : Rat) : Session :=
  { sessionId := some id, title := "", date := some "2025-12-01", startTime := some st,
    endTime := some en, venue := none, keywordsMatched := [], score := some sc }

/-- Counterexample day, session 1: 09:00–10:05 (becomes slot 1's primary). -/
def cexS1 : Session := mkTimedSession "S1" "09:00" "10:05" 3

/-- Counterexample day, session 2: 10:20–10:50 (becomes slot 2's primary and
is then dropped: it starts 15 minutes after session 1 ends, inside the
30-minute buffer). -/
def cexS2 : Session := mkTimedSession "S2" "10:20" "10:50" 2

/-- Counterexample day, session 3: 10:50–11:20, overlapping the 11:00–13:00
lunch window; it is slot 2's backup candidate (both endpoints exactly 30
minutes from the slot's). -/
def cexS3 : Session := mkTimedSession "S3" "10:50" "11:20" 1

/-- One-date schedule input: a single scheduled session. -/
def evalA1 : Session := mkTimedSession "A" "09:00" "10:00" 1

/-- A session with a given venue and nothing else populated. -/
def mkVenueSession (v : Option String) : Session :=
  { sessionId := none, title := "", date := none, startTime := none, endTime := none,
    venue := v, keywordsMatched := [], score := none }

/-- A backup candidate whose un-clamped backup score exceeds 1: original
score 1, exact time match, four high-value keywords, most convenient
venue. -/
def maxBonusSession : Session :=
  { sessionId := some "X", title := "", date := none, startTime := some "10:00",
    endTime := some "11:00", venue := some "Venetian",
    keywordsMatched := ["AI", "Architect", "Lakehouse", "DevOps"], score := some 1 }

/-- The slot `maxBonusSession` is evaluated against. -/
def maxBonusSlot : TimeSlot :=
  { slotId := "slot_1", startTime := "10:00", endTime := "11:00", date := "2025-12-01" }

/-- Scenario primaries for the conflict resolver: 09:00–10:00. -/
def scenA : ScheduledSession :=
  { session := mkTimedSession "P1" "09:00" "10:00" 2, timeSlot := "slot_1",
    scheduledStart := "09:00", scheduledEnd := "10:00" }

/-- Scenario primaries for the conflict resolver: 10:15–11:00. -/
def scenB : ScheduledSession :=
  { session := mkTimedSession "P2" "10:15" "11:00" 1, timeSlot := "slot_2",
    scheduledStart := "10:15", scheduledEnd := "11:00" }

/-- A session with no start or end time. -/
def untimedSession : Session :=
  { sessionId := some "N", title := "", date := some "2025-12-01", startTime := none,
    endTime := none, venue := none, keywordsMatched := [], score := some 1 }

/-- Exact-match pair for the primary-assigner witness: score 2. -/
def tieLow : Session := mkTimedSession "B1" "09:00" "10:00" 2

/-- Exact-match pair for the primary-assigner witness: score 3. -/
def tieHigh : Session := mkTimedSession "B2" "09:00" "10:00" 3

/-- The 09:00–10:00 slot both witness sessions match exactly. -/
def tieSlot : TimeSlot :=
  { slotId := "slot_1", startTime := "09:00", endTime := "10:00", date := "2025-12-01" }

/-- Witness session for the lunch-exclusion theorem. -/
def lunchW : Session := mkTimedSession "W" "09:00" "10:00" 1

end ReInvent

namespace ReInvent

/-! ### Supporting lemmas -/

/-- The resolver's conflict test is literally the claim's buffered-overlap
test with the resolver's 30-minute buffer. -/
lemma sessionsConflict_eq_claim : sessionsConflict = claimBufferedOverlap := rfl

/-- The claim's buffered-overlap test is `false` whenever the left session's
times do not parse. -/
lemma claimBufferedOverlap_left_none (s1 e1 s2 e2 : String)
    (h : parseTime s1 = none ∨ parseTime e1 = none) :
    claimBufferedOverlap s1 e1 s2 e2 = false := by
  unfold claimBufferedOverlap
  rcases h with h | h
  · rw [h]
  · cases h1 : parseTime s1 <;> rw [h]

/-- Parsing the empty string fails. -/
lemma parseTime_empty : parseTime "" = none := by decide

/-- One step of `_resolve_time_conflicts` equals one step of the claim's
scan: a session with falsy times is appended either way (its conflict test
is vacuously false), and otherwise the same buffered test decides. -/
lemma resolveLoop_eq_drop (l : List ScheduledSession) :
    ∀ acc, resolveLoop acc l = dropConflictingLoop acc l := by
  induction l with
  | nil => intro acc; rfl
  | cons cur rest ih =>
    intro acc
    by_cases hempty : (cur.scheduledStart == "" || cur.scheduledEnd == "") = true
    · have hnone : parseTime cur.scheduledStart = none ∨ parseTime cur.scheduledEnd = none := by
        rcases Bool.or_eq_true_iff.mp hempty with h | h
        · exact Or.inl (by rw [beq_iff_eq.mp h]; exact parseTime_empty)
        · exact Or.inr (by rw [beq_iff_eq.mp h]; exact parseTime_empty)
      have hany : (acc.any fun prev =>
          claimBufferedOverlap cur.scheduledStart cur.scheduledEnd prev.scheduledStart
            prev.scheduledEnd) = false := by
        rw [List.any_eq_false]
        intro prev _
        simp [claimBufferedOverlap_left_none _ _ _ _ hnone]
      simp only [resolveLoop, dropConflictingLoop, hempty, hany, if_true, if_false,
        Bool.false_eq_true]
      exact ih (acc ++ [cur])
    · simp only [resolveLoop, dropConflictingLoop, hempty, if_false, Bool.false_eq_true,
        ← sessionsConflict_eq_claim]
      by_cases hconf : (acc.any fun prev =>
          sessionsConflict cur.scheduledStart cur.scheduledEnd prev.scheduledStart
            prev.scheduledEnd) = true
      · simp only [hconf, if_true]; exact ih acc
      · simp only [hconf, if_false, Bool.not_eq_true] at *
        simp only [hconf, Bool.false_eq_true, if_false]
        exact ih (acc ++ [cur])

/-! ### Claim theorems -/

/-- C5: the conflict resolver sorts the primary list by scheduled start and,
scanning left to right, drops (never reschedules) every session whose
buffered interval overlaps an already-accepted session's, using the test
`start1 < end2 + buffer AND start2 < end1 + buffer`; with the 30-minute
buffer, same-day primaries 09:00–10:00 and 10:15–11:00 resolve to the first
alone. -/
theorem conflict_resolver_drops_buffered_overlaps (sessions : List ScheduledSession) :
    resolveTimeConflicts sessions = dropConflictingSpec sessions
    ∧ (resolveConflicts [scenA, scenB] []).primary = [scenA] := by
  constructor
  · by_cases h : sessions.isEmpty
    · rw [List.isEmpty_iff.mp h]; rfl
    · simp only [resolveTimeConflicts, h, Bool.false_eq_true, if_false, dropConflictingSpec]
      exact resolveLoop_eq_drop _ []
  · decide

/-- C9: when any of the four time strings fails to parse as `HH:MM`, the
buffered conflict test and the backup time-compatibility test both return
`false` (the `except` branches), never propagating an error. -/
theorem unparsable_times_no_conflict (s1 e1 s2 e2 : String)
    (h : parseTime s1 = none ∨ parseTime e1 = none ∨ parseTime s2 = none ∨ parseTime e2 = none) :
    sessionsConflict s1 e1 s2 e2 = false ∧ timesAreCompatible s1 e1 s2 e2 = false := by
  unfold sessionsConflict timesAreCompatible
  cases h1 : parseTime s1 <;> cases h2 : parseTime e1 <;> cases h3 : parseTime s2 <;>
    cases h4 : parseTime e2 <;> simp_all

/-- C9 witness: the malformed string `"no:on"` on the left yields `false`
from both tests. -/
theorem unparsable_times_no_conflict_witness :
    sessionsConflict "no:on" "10:00" "11:00" "12:00" = false
    ∧ timesAreCompatible "no:on" "10:00" "11:00" "12:00" = false :=
  unparsable_times_no_conflict "no:on" "10:00" "11:00" "12:00" (Or.inl (by decide))

end ReInvent

namespace ReInvent

/-- The time-compatibility bonus of the exact-match example evaluates to the
full `0.2`. -/
lemma maxBonus_time : calculateTimeCompatibilityBonus maxBonusSession maxBonusSlot = 2/10 := by
  simp +decide only [calculateTimeCompatibilityBonus, maxBonusSession, maxBonusSlot, truthy,
    getStr, Option.getD,
    show parseTime "10:00" = some 600 from by decide,
    show parseTime "11:00" = some 660 from by decide]
  norm_num

/-- The diversity bonus of the four-keyword example evaluates to the cap
`0.15`. -/
lemma maxBonus_diversity : calculateDiversityBonus maxBonusSession = 15/100 := by
  simp +decide only [calculateDiversityBonus, maxBonusSession, highValueKeywords, lowerChars,
    List.foldl, List.any, List.length]
  norm_num

/-- The venue bonus of the Venetian example evaluates to the top `0.1`. -/
lemma maxBonus_venue : calculateVenueBonus maxBonusSession = 1/10 := by
  simp +decide only [calculateVenueBonus, venueScoresBackup, venueBonusLoop, maxBonusSession,
    getStr, lowerChars, Option.getD, if_true, if_false]

/-- The un-clamped backup score of the example is `1.15`. -/
lemma maxBonus_raw : calculateBackupScoreRaw maxBonusSession maxBonusSlot = 115/100 := by
  rw [calculateBackupScoreRaw, maxBonus_time, maxBonus_diversity, maxBonus_venue]
  norm_num [scoreOf, maxBonusSession]

/-- C10: the backup score attached to a candidate never exceeds `1.0`: the
sum `0.7·originalScore + timeBonus + diversityBonus + venueBonus` is clamped
by `min(1.0, ·)` before being stored, and the clamp is reachable — a
candidate whose un-clamped total is `1.15` is stored with score exactly
`1`. -/
theorem backup_score_clamped_at_one :
    (∀ (s : Session) (slot : TimeSlot), calculateBackupScore s slot ≤ 1)
    ∧ calculateBackupScore maxBonusSession maxBonusSlot = 1
    ∧ 1 < calculateBackupScoreRaw maxBonusSession maxBonusSlot := by
  refine ⟨fun s slot => min_le_left 1 _, ?_, ?_⟩
  · rw [calculateBackupScore, maxBonus_raw]; norm_num
  · rw [maxBonus_raw]; norm_num

/-- C3 (evaluation): the venue-convenience component floors at the `0.5`
initial value of the lookup's running maximum, so the explicitly excluded
venues — whose table entries are `0.0` with a `# Excluded venue` comment —
score `0.5`, the same as an empty or unknown venue, not the `0.0` the table
intends. -/
theorem excluded_venue_component_evaluation :
    scoreVenueConvenience (mkVenueSession (some "MGM Grand")) = 1/2
    ∧ scoreVenueConvenience (mkVenueSession (some "Mandalay Bay")) = 1/2
    ∧ scoreVenueConvenience (mkVenueSession none) = 1/2
    ∧ scoreVenueConvenience (mkVenueSession (some "Luxor")) = 1/2 := by
  refine ⟨?_, ?_, ?_, ?_⟩ <;>
    simp +decide only [scoreVenueConvenience, venueConvenienceScores, List.foldl, mkVenueSession,
      getStr, lowerChars, Option.getD, List.isEmpty, max_def] <;>
    norm_num

/-- `round(0, 1)` is `0`. -/
lemma round1_zero : round1 0 = 0 := by norm_num [round1, roundHalfEven]

/-- On a one-entry schedule mapping (one conference date, the summary not
yet inserted), the efficiency guard `len(schedule) > 1` fails and the
metric is `round(0, 1) = 0`. -/
lemma summary_singleton_eff (sched : List (String × DailySchedule)) (h : sched.length = 1) :
    (generateScheduleSummary sched).scheduleEfficiency = 0 := by
  simp only [generateScheduleSummary, h]
  norm_num [round1_zero]

/-- C2 (evaluation): on a single conference date with one scheduled
session, the summary reports one scheduled session but an efficiency of
`0`, while the claimed formula `round(total / numberOfDates, 1)` gives
`1.0`: the code divides by `len(schedule) - 1` on a mapping that does not
yet contain the `'summary'` key. -/
theorem schedule_efficiency_denominator_evaluation :
    (createSchedule defaultConfig [evalA1] ["2025-12-01"]).2.totalScheduledSessions = 1
    ∧ (createSchedule defaultConfig [evalA1] ["2025-12-01"]).2.scheduleEfficiency = 0
    ∧ round1 ((1 : Rat) / (1 : Rat)) = 1 := by
  refine ⟨by decide, ?_, by norm_num [round1, roundHalfEven]⟩
  exact summary_singleton_eff (createScheduleDays defaultConfig [evalA1] ["2025-12-01"])
    (by decide)

end ReInvent

namespace ReInvent

/-- A falsy optional string reads back as the empty string. -/
lemma truthy_false_getStr {o : Option String} (h : ¬ truthy o = true) : getStr o = "" := by
  unfold truthy at h
  simpa using h

/-- `_session_fits_slot` coincides with the claim's time-compatibility
predicate: the truthiness pre-check only rules out strings that fail to
parse anyway. -/
lemma fits_eq_claim (s : Session) (st en : String) :
    sessionFitsSlot s st en = claimTimeCompatible s st en := by
  by_cases h1 : truthy s.startTime
  · by_cases h2 : truthy s.endTime
    · simp only [sessionFitsSlot, h1, h2, Bool.and_self, Bool.not_true, Bool.false_eq_true,
        if_false]
      rfl
    · rw [sessionFitsSlot, claimTimeCompatible, truthy_false_getStr h2, parseTime_empty]
      simp only [h1, Bool.not_eq_true] at *
      simp only [h1, h2, Bool.and_false, Bool.not_false, if_true]
      cases parseTime (getStr s.startTime) <;> rfl
  · rw [sessionFitsSlot, claimTimeCompatible, truthy_false_getStr h1, parseTime_empty]
    simp only [Bool.not_eq_true] at h1
    simp only [h1, Bool.false_and, Bool.not_false, if_true]

/-- `_find_candidate_sessions` is exactly the filter the claim describes:
sessions outside the primary id set whose times are within the tolerance. -/
lemma candLoop_eq_filter (st en : String) (excl : List (Option String)) :
    ∀ all, candLoop st en excl all =
      all.filter fun s => !excl.contains s.sessionId && claimTimeCompatible s st en := by
  intro all
  induction all with
  | nil => rfl
  | cons s rest ih =>
    by_cases hc : s.sessionId ∈ excl
    · simp [candLoop, hc, ih]
    · by_cases hf : claimTimeCompatible s st en = true
      · simp [candLoop, hc, hf, fits_eq_claim, ih]
      · simp [candLoop, hc, hf, fits_eq_claim, ih]

/-- `_rank_backup_candidates` output is sorted descending by backup score. -/
lemma rank_pairwise (c : List Session) (slot : TimeSlot) :
    (rankBackupCandidates c slot).Pairwise backupGe := by
  rw [rankBackupCandidates]
  by_cases h : c.isEmpty
  · simp [h]
  · simp only [h, Bool.false_eq_true, if_false]
    exact List.sorted_insertionSort backupGe _

/-- The per-slot backup selection stays sorted after the cap. -/
lemma selected_pairwise (cfg : Config) (all : List Session) (ids : List (Option String))
    (slot : TimeSlot) : (selectedBackups cfg all ids slot).Pairwise backupGe :=
  List.Pairwise.sublist (List.take_sublist _ _) (rank_pairwise _ _)

/-- The per-slot backup selection respects the `max(minBackupCount, 3)`
cap. -/
lemma selected_length (cfg : Config) (all : List Session) (ids : List (Option String))
    (slot : TimeSlot) : (selectedBackups cfg all ids slot).length ≤ max cfg.minBackupSessions 3 := by
  rw [selectedBackups]
  exact List.length_take_le _ _

/-- `generate_backups` is the per-slot selection, slot by slot. -/
lemma generateBackupsLoop_eq_map (cfg : Config) (all : List Session) (ids : List (Option String)) :
    ∀ slots, generateBackupsLoop cfg all ids slots
      = slots.map fun sl => (sl.slotId, selectedBackups cfg all ids sl) := by
  intro slots
  induction slots with
  | nil => rfl
  | cons a r ih => rw [generateBackupsLoop, List.map_cons, ih]

/-- C7: for every slot, the backup generator's candidate set is exactly the
sessions outside the primary id set whose start and end are each within 30
minutes of the slot's; the resulting list is sorted descending by backup
score and capped at `max(minBackupCount, 3)`. -/
theorem backup_generator_candidates_sorted_capped (cfg : Config) (all : List Session)
    (primary : List ScheduledSession) (slots : List TimeSlot) (slot : TimeSlot) :
    generateBackups cfg all primary slots
      = slots.map (fun sl => (sl.slotId, selectedBackups cfg all (primaryIdsOf primary) sl))
    ∧ findCandidateSessions all slot.startTime slot.endTime (primaryIdsOf primary)
      = all.filter (fun s => !(primaryIdsOf primary).contains s.sessionId
          && claimTimeCompatible s slot.startTime slot.endTime)
    ∧ (selectedBackups cfg all (primaryIdsOf primary) slot).Pairwise backupGe
    ∧ (selectedBackups cfg all (primaryIdsOf primary) slot).length
        ≤ max cfg.minBackupSessions 3 :=
  ⟨generateBackupsLoop_eq_map cfg all (primaryIdsOf primary) slots,
   candLoop_eq_filter slot.startTime slot.endTime (primaryIdsOf primary) all,
   selected_pairwise cfg all (primaryIdsOf primary) slot,
   selected_length cfg all (primaryIdsOf primary) slot⟩

/-- The slot-acceptance loop of the source, projected to its time pairs,
is the claim's acceptance scan. -/
lemma slotLoop_map (cfg : Config) (date : String) (pairs : List (String × String)) :
    ∀ acc, (slotLoop cfg date pairs acc).map (fun sl => (sl.startTime, sl.endTime))
      = acceptSlotsSpec cfg (acc.map fun sl => (sl.startTime, sl.endTime)) pairs := by
  induction pairs with
  | nil => intro acc; rfl
  | cons p rest ih =>
    intro acc
    obtain ⟨st, en⟩ := p
    by_cases hl : isLunchTime cfg st en = true
    · simp only [slotLoop, acceptSlotsSpec, hl, if_true]
      exact ih acc
    · have hany : ((acc.map fun sl => (sl.startTime, sl.endTime)).any
          fun q => timesOverlap st en q.1 q.2)
          = (acc.any fun sl => timesOverlap st en sl.startTime sl.endTime) := by
        induction acc with
        | nil => rfl
        | cons a r ihl => simp [ihl]
      by_cases ho : (acc.any fun sl => timesOverlap st en sl.startTime sl.endTime) = true
      · simp only [slotLoop, acceptSlotsSpec, hl, ho, hany, if_true, if_false,
          Bool.false_eq_true]
        exact ih acc
      · simp only [Bool.not_eq_true] at ho
        simp only [slotLoop, acceptSlotsSpec, hl, ho, hany, if_false, Bool.false_eq_true]
        rw [ih]
        simp

/-- C8: the slot builder collects the populated `(start, end)` pairs, sorts
them ascending, accepts each range unless it overlaps the lunch window
(`start < lunchEnd AND end > lunchStart`) or an already-accepted slot, and
truncates to `maxSlotsPerDay`; with no populated pair it returns the empty
slot list. -/
theorem slot_builder_sorted_accept (cfg : Config) (sessions : List Session) (date : String) :
    (generateTimeSlots cfg sessions date).map (fun sl => (sl.startTime, sl.endTime))
      = buildSlotsSpec cfg sessions
    ∧ (collectTimes sessions = [] → generateTimeSlots cfg sessions date = []) := by
  constructor
  · by_cases h : (collectTimes sessions).isEmpty
    · have hc : collectTimes sessions = [] := List.isEmpty_iff.mp h
      simp [generateTimeSlots, buildSlotsSpec, hc]
      exact Or.inr rfl
    · simp only [generateTimeSlots, buildSlotsSpec, h, Bool.false_eq_true, if_false]
      rw [List.map_take, slotLoop_map cfg date _ []]
      rfl
  · intro h
    simp [generateTimeSlots, h]

/-- C8 witness: a session with no populated times yields the empty slot
list rather than an error. -/
theorem slot_builder_sorted_accept_witness :
    generateTimeSlots defaultConfig [untimedSession] "2025-12-01" = [] :=
  (slot_builder_sorted_accept defaultConfig [untimedSession] "2025-12-01").2 (by decide)

end ReInvent

namespace ReInvent

/-- Boolean negation to equation form. -/
lemma bool_not_true {b : Bool} (h : ¬ b = true) : b = false := by
  cases b
  · rfl
  · exact absurd rfl h

/-- A false boolean is not true. -/
lemma bool_false_not_true {b : Bool} (h : b = false) : ¬ b = true := by
  rw [h]; exact Bool.noConfusion

/-- Appending preserves membership for `contains`. -/
lemma contains_extend {l : List (Option String)} (x a : Option String)
    (h : l.contains a = true) : (l ++ [x]).contains a = true := by
  induction l with
  | nil => exact absurd h (by simp)
  | cons y r ihr =>
    rw [List.cons_append, List.contains_cons]
    rw [List.contains_cons] at h
    rcases Bool.or_eq_true_iff.mp h with h1 | h2
    · rw [Bool.or_eq_true_iff]; exact Or.inl h1
    · rw [Bool.or_eq_true_iff]; exact Or.inr (ihr h2)

/-- The appended element is found by `contains`. -/
lemma contains_last (l : List (Option String)) (x : Option String) :
    (l ++ [x]).contains x = true := by
  induction l with
  | nil => simp
  | cons y r ihr =>
    rw [List.cons_append, List.contains_cons]
    simp [ihr]

/-- Unfolding the spec's exact-match candidate filter one session at a
time. -/
lemma exactMatches_cons (sessions : List Session) (used : List (Option String)) (slot : TimeSlot)
    (s : Session) :
    exactMatches (s :: sessions) used slot
      = if !used.contains s.sessionId
          && (s.startTime == some slot.startTime && s.endTime == some slot.endTime)
        then s :: exactMatches sessions used slot else exactMatches sessions used slot := by
  simp only [exactMatches, List.filter_cons]

/-- Once some candidate is held, the best-candidate scan computes the
first-encountered maximum over the remaining exact matches. -/
lemma pickLoop_some (slot : TimeSlot) (used : List (Option String)) :
    ∀ (sessions : List Session) (b : Session),
      (pickLoop slot used sessions (some b) (scoreOf b)).1
        = some ((exactMatches sessions used slot).foldl
            (fun best c => if scoreOf c > scoreOf best then c else best) b) := by
  intro sessions
  induction sessions with
  | nil => intro b; rfl
  | cons s rest ih =>
    intro b
    rw [pickLoop, exactMatches_cons]
    by_cases hc : used.contains s.sessionId = true
    · have hp : (!used.contains s.sessionId
          && (s.startTime == some slot.startTime && s.endTime == some slot.endTime)) = false := by
        rw [hc]; rfl
      rw [if_pos hc, if_neg (bool_false_not_true hp)]
      exact ih b
    · have hcf : used.contains s.sessionId = false := bool_not_true hc
      by_cases hm : (s.startTime == some slot.startTime && s.endTime == some slot.endTime) = true
      · have hp : (!used.contains s.sessionId
            && (s.startTime == some slot.startTime && s.endTime == some slot.endTime)) = true := by
          rw [hcf, hm]; rfl
        rw [if_neg hc, if_pos hm, if_pos hp, List.foldl_cons]
        by_cases hgt : scoreOf s > scoreOf b
        · rw [if_pos hgt, if_pos hgt]
          exact ih s
        · rw [if_neg hgt, if_neg hgt]
          exact ih b
      · have hp : (!used.contains s.sessionId
            && (s.startTime == some slot.startTime && s.endTime == some slot.endTime)) = false := by
          rw [bool_not_true hm, Bool.and_false]
        rw [if_neg hc, if_neg hm, if_neg (bool_false_not_true hp)]
        exact ih b

/-- From the empty state (score threshold `-1`), the best-candidate scan of
the source computes exactly the claim's highest-score/first-encountered
pick over the exact matches, provided scores are non-negative (so the first
candidate always beats the `-1` sentinel). -/
lemma pickLoop_none (slot : TimeSlot) (used : List (Option String)) :
    ∀ (sessions : List Session), (∀ s ∈ sessions, 0 ≤ scoreOf s) →
      (pickLoop slot used sessions none (-1)).1 = argmaxFirst (exactMatches sessions used slot) := by
  intro sessions
  induction sessions with
  | nil => intro _; rfl
  | cons s rest ih =>
    intro h
    rw [pickLoop, exactMatches_cons]
    by_cases hc : used.contains s.sessionId = true
    · have hp : (!used.contains s.sessionId
          && (s.startTime == some slot.startTime && s.endTime == some slot.endTime)) = false := by
        rw [hc]; rfl
      rw [if_pos hc, if_neg (bool_false_not_true hp)]
      exact ih fun x hx => h x (List.mem_cons_of_mem s hx)
    · have hcf : used.contains s.sessionId = false := bool_not_true hc
      by_cases hm : (s.startTime == some slot.startTime && s.endTime == some slot.endTime) = true
      · have hp : (!used.contains s.sessionId
            && (s.startTime == some slot.startTime && s.endTime == some slot.endTime)) = true := by
          rw [hcf, hm]; rfl
        have hgt : scoreOf s > (-1 : Rat) :=
          lt_of_lt_of_le (by norm_num) (h s (List.mem_cons_self s rest))
        rw [if_neg hc, if_pos hm, if_pos hgt, if_pos hp, argmaxFirst]
        exact pickLoop_some slot used rest s
      · have hp : (!used.contains s.sessionId
            && (s.startTime == some slot.startTime && s.endTime == some slot.endTime)) = false := by
          rw [bool_not_true hm, Bool.and_false]
        rw [if_neg hc, if_neg hm, if_neg (bool_false_not_true hp)]
        exact ih fun x hx => h x (List.mem_cons_of_mem s hx)

/-- The slot loop of the source equals the claim's assignment loop under
non-negative scores. -/
lemma primaryLoop_eq_assign (sessions : List Session) (h : ∀ s ∈ sessions, 0 ≤ scoreOf s) :
    ∀ (slots : List TimeSlot) (acc : List ScheduledSession) (used : List (Option String)),
      primaryLoop sessions slots acc used = assignPrimaryLoop sessions slots acc used := by
  intro slots
  induction slots with
  | nil => intro acc used; rfl
  | cons slot rest ih =>
    intro acc used
    rw [primaryLoop, assignPrimaryLoop, pickLoop_none slot used sessions h]
    cases argmaxFirst (exactMatches sessions used slot) with
    | none => exact ih acc used
    | some s => exact ih _ _

/-- A session returned by the best-candidate scan was free: either it is
the held candidate, or it comes from the list and its id is not used. -/
lemma pickLoop_result_mem (slot : TimeSlot) (used : List (Option String)) :
    ∀ (sessions : List Session) (b0 : Option Session) (sc0 : Rat) (s : Session),
      (pickLoop slot used sessions b0 sc0).1 = some s →
      b0 = some s ∨ (s ∈ sessions ∧ used.contains s.sessionId = false) := by
  intro sessions
  induction sessions with
  | nil => intro b0 sc0 s h; exact Or.inl h
  | cons c rest ih =>
    intro b0 sc0 s h
    rw [pickLoop] at h
    by_cases hc : used.contains c.sessionId = true
    · rw [if_pos hc] at h
      rcases ih _ _ _ h with h1 | h2
      · exact Or.inl h1
      · exact Or.inr ⟨List.mem_cons_of_mem c h2.1, h2.2⟩
    · rw [if_neg hc] at h
      by_cases hm : (c.startTime == some slot.startTime && c.endTime == some slot.endTime) = true
      · rw [if_pos hm] at h
        by_cases hgt : scoreOf c > sc0
        · rw [if_pos hgt] at h
          rcases ih _ _ _ h with h1 | h2
          · have hcs : c = s := Option.some.inj h1
            exact Or.inr ⟨hcs ▸ List.mem_cons_self c rest, hcs ▸ bool_not_true hc⟩
          · exact Or.inr ⟨List.mem_cons_of_mem c h2.1, h2.2⟩
        · rw [if_neg hgt] at h
          rcases ih _ _ _ h with h1 | h2
          · exact Or.inl h1
          · exact Or.inr ⟨List.mem_cons_of_mem c h2.1, h2.2⟩
      · rw [if_neg hm] at h
        rcases ih _ _ _ h with h1 | h2
        · exact Or.inl h1
        · exact Or.inr ⟨List.mem_cons_of_mem c h2.1, h2.2⟩

/-- The slot loop keeps session ids pairwise distinct: every accepted
session's id is in the used set, and a newly picked session's id is not. -/
lemma primaryLoop_pairwise (sessions : List Session) :
    ∀ (slots : List TimeSlot) (acc : List ScheduledSession) (used : List (Option String)),
      (∀ p ∈ acc, used.contains p.session.sessionId = true) →
      acc.Pairwise distinctIds →
      (primaryLoop sessions slots acc used).Pairwise distinctIds := by
  intro slots
  induction slots with
  | nil => intro acc used _ hpw; exact hpw
  | cons slot rest ih =>
    intro acc used hin hpw
    rw [primaryLoop]
    cases hpick : (pickLoop slot used sessions none (-1)).1 with
    | none => exact ih acc used hin hpw
    | some s =>
      rcases pickLoop_result_mem slot used sessions none (-1) s hpick with h1 | h2
      · exact Option.noConfusion h1
      · apply ih
        · intro p hp
          rcases List.mem_append.mp hp with hpa | hpn
          · exact contains_extend s.sessionId p.session.sessionId (hin p hpa)
          · rw [List.mem_singleton.mp hpn]
            exact contains_last used s.sessionId
        · rw [List.pairwise_append]
          refine ⟨hpw, List.pairwise_singleton _ _, ?_⟩
          intro a ha b hb
          rw [List.mem_singleton.mp hb]
          intro heq
          have hat := hin a ha
          rw [heq] at hat
          rw [h2.2] at hat
          exact Bool.noConfusion hat

/-- C6: the primary assigner fills each slot with the not-yet-used session
whose `(start, end)` exactly equals the slot's and whose score is highest
(ties to the first encountered), leaves exact-match-free slots unfilled
without blocking later ones, and assigns each session id to at most one
slot — stated as agreement with the claim's assignment procedure plus
pairwise-distinct ids, for score-sorted inputs with non-negative scores. -/
theorem primary_assigner_exact_match_argmax (sessions : List Session) (slots : List TimeSlot)
    (h : ∀ s ∈ sessions, 0 ≤ scoreOf s) :
    schedulePrimarySessions sessions slots = assignPrimarySpec sessions slots
    ∧ (schedulePrimarySessions sessions slots).Pairwise distinctIds :=
  ⟨primaryLoop_eq_assign sessions h slots [] [],
   primaryLoop_pairwise sessions slots [] []
     (fun p hp => absurd hp (List.not_mem_nil p)) List.Pairwise.nil⟩

/-- C6 witness: on two exact matches for the 09:00–10:00 slot with scores
2 and 3, the source agrees with the claim's pick and ids are distinct. -/
theorem primary_assigner_exact_match_argmax_witness :
    schedulePrimarySessions [tieLow, tieHigh] [tieSlot]
      = assignPrimarySpec [tieLow, tieHigh] [tieSlot]
    ∧ (schedulePrimarySessions [tieLow, tieHigh] [tieSlot]).Pairwise distinctIds :=
  primary_assigner_exact_match_argmax [tieLow, tieHigh] [tieSlot] (by decide)

end ReInvent

namespace ReInvent

/-- Every slot accepted by the slot loop fails the lunch-overlap test (or
was already in the accumulator). -/
lemma slotLoop_lunch (cfg : Config) (date : String) :
    ∀ (pairs : List (String × String)) (acc : List TimeSlot) (sl : TimeSlot),
      sl ∈ slotLoop cfg date pairs acc →
      sl ∈ acc ∨ isLunchTime cfg sl.startTime sl.endTime = false := by
  intro pairs
  induction pairs with
  | nil => intro acc sl h; exact Or.inl h
  | cons p rest ih =>
    intro acc sl h
    obtain ⟨st, en⟩ := p
    rw [slotLoop] at h
    by_cases hl : isLunchTime cfg st en = true
    · rw [if_pos hl] at h
      exact ih acc sl h
    · rw [if_neg hl] at h
      by_cases ho : (acc.any fun q => timesOverlap st en q.startTime q.endTime) = true
      · rw [if_pos ho] at h
        exact ih acc sl h
      · rw [if_neg ho] at h
        rcases ih _ sl h with h1 | h2
        · rcases List.mem_append.mp h1 with ha | hn
          · exact Or.inl ha
          · right
            rw [List.mem_singleton.mp hn]
            exact bool_not_true hl
        · exact Or.inr h2

/-- No generated slot overlaps the lunch window. -/
lemma generateTimeSlots_lunch (cfg : Config) (sessions : List Session) (date : String)
    (sl : TimeSlot) (h : sl ∈ generateTimeSlots cfg sessions date) :
    isLunchTime cfg sl.startTime sl.endTime = false := by
  simp only [generateTimeSlots] at h
  by_cases he : (collectTimes sessions).isEmpty = true
  · rw [if_pos he] at h
    exact absurd h (List.not_mem_nil sl)
  · rw [if_neg he] at h
    have h2 := (List.take_sublist _ _).subset h
    rcases slotLoop_lunch cfg date _ [] sl h2 with h3 | h3
    · exact absurd h3 (List.not_mem_nil sl)
    · exact h3

/-- Every session scheduled by the slot loop carries the times of one of
the slots. -/
lemma primaryLoop_times (sessions : List Session) :
    ∀ (slots : List TimeSlot) (acc : List ScheduledSession) (used : List (Option String))
      (p : ScheduledSession), p ∈ primaryLoop sessions slots acc used →
      p ∈ acc ∨ ∃ sl, sl ∈ slots ∧ p.scheduledStart = sl.startTime ∧ p.scheduledEnd = sl.endTime := by
  intro slots
  induction slots with
  | nil => intro acc used p h; exact Or.inl h
  | cons slot rest ih =>
    intro acc used p h
    rw [primaryLoop] at h
    rcases hpick : (pickLoop slot used sessions none (-1)).1 with _ | s
    · rw [hpick] at h
      rcases ih acc used p h with h1 | ⟨sl, hsl, hss, hse⟩
      · exact Or.inl h1
      · exact Or.inr ⟨sl, List.mem_cons_of_mem slot hsl, hss, hse⟩
    · rw [hpick] at h
      rcases ih _ _ p h with h1 | ⟨sl, hsl, hss, hse⟩
      · rcases List.mem_append.mp h1 with ha | hn
        · exact Or.inl ha
        · right
          refine ⟨slot, List.mem_cons_self slot rest, ?_, ?_⟩
          · rw [List.mem_singleton.mp hn]
          · rw [List.mem_singleton.mp hn]
      · exact Or.inr ⟨sl, List.mem_cons_of_mem slot hsl, hss, hse⟩

/-- The accept/drop scan only ever emits sessions from its inputs. -/
lemma resolveLoop_mem :
    ∀ (l acc : List ScheduledSession) (x : ScheduledSession),
      x ∈ resolveLoop acc l → x ∈ acc ∨ x ∈ l := by
  intro l
  induction l with
  | nil => intro acc x h; exact Or.inl h
  | cons cur rest ih =>
    intro acc x h
    rw [resolveLoop] at h
    by_cases h1 : (cur.scheduledStart == "" || cur.scheduledEnd == "") = true
    · rw [if_pos h1] at h
      rcases ih _ x h with ha | hr
      · rcases List.mem_append.mp ha with haa | han
        · exact Or.inl haa
        · exact Or.inr (by rw [List.mem_singleton.mp han]; exact List.mem_cons_self cur rest)
      · exact Or.inr (List.mem_cons_of_mem cur hr)
    · rw [if_neg h1] at h
      by_cases h2 : (acc.any fun prev =>
          sessionsConflict cur.scheduledStart cur.scheduledEnd prev.scheduledStart
            prev.scheduledEnd) = true
      · rw [if_pos h2] at h
        rcases ih _ x h with ha | hr
        · exact Or.inl ha
        · exact Or.inr (List.mem_cons_of_mem cur hr)
      · rw [if_neg h2] at h
        rcases ih _ x h with ha | hr
        · rcases List.mem_append.mp ha with haa | han
          · exact Or.inl haa
          · exact Or.inr (by rw [List.mem_singleton.mp han]; exact List.mem_cons_self cur rest)
        · exact Or.inr (List.mem_cons_of_mem cur hr)

/-- `_resolve_time_conflicts` only keeps input sessions. -/
lemma resolveTimeConflicts_mem (l : List ScheduledSession) (x : ScheduledSession)
    (h : x ∈ resolveTimeConflicts l) : x ∈ l := by
  rw [resolveTimeConflicts] at h
  by_cases he : l.isEmpty = true
  · rw [if_pos he] at h
    exact h
  · rw [if_neg he] at h
    rcases resolveLoop_mem _ [] x h with h1 | h2
    · exact absurd h1 (List.not_mem_nil x)
    · exact (List.perm_insertionSort schedLe l).mem_iff.mp h2

/-- The resolver's final primary list only holds sessions of the incoming
primary list. -/
lemma resolveConflicts_primary_mem (primary : List ScheduledSession)
    (backups : List (String × List BackupEntry)) (x : ScheduledSession)
    (h : x ∈ (resolveConflicts primary backups).primary) : x ∈ primary := by
  have h2 : x ∈ resolveTimeConflicts primary :=
    (List.perm_insertionSort schedLe (resolveTimeConflicts primary)).mem_iff.mp h
  exact resolveTimeConflicts_mem primary x h2

/-- C1 (amended): no session in the final primary list of a daily schedule
overlaps the configured lunch window — its scheduled interval is a slot's
interval, and slots overlapping lunch are never created.  (The lunch
guarantee does not extend to backup pools; see the counterexample.) -/
theorem primary_sessions_never_overlap_lunch (cfg : Config) (sessions : List Session)
    (date : String) (p : ScheduledSession)
    (hp : p ∈ (createDailySchedule cfg sessions date).primarySessions) :
    isLunchTime cfg p.scheduledStart p.scheduledEnd = false := by
  have hp2 : p ∈ (resolveConflicts
      (schedulePrimarySessions (List.insertionSort scoreGe sessions)
        (generateTimeSlots cfg (List.insertionSort scoreGe sessions) date))
      (generateBackups cfg (List.insertionSort scoreGe sessions)
        (schedulePrimarySessions (List.insertionSort scoreGe sessions)
          (generateTimeSlots cfg (List.insertionSort scoreGe sessions) date))
        (generateTimeSlots cfg (List.insertionSort scoreGe sessions) date))).primary := hp
  have h1 : p ∈ schedulePrimarySessions (List.insertionSort scoreGe sessions)
      (generateTimeSlots cfg (List.insertionSort scoreGe sessions) date) :=
    resolveConflicts_primary_mem _ _ p hp2
  rcases primaryLoop_times _ _ [] [] p h1 with h2 | ⟨sl, hsl, hss, hse⟩
  · exact absurd h2 (List.not_mem_nil p)
  · rw [hss, hse]
    exact generateTimeSlots_lunch cfg _ date sl hsl

/-- C1 witness: on a one-session day the session is scheduled as primary
and its 09:00–10:00 interval indeed fails the lunch-overlap test. -/
theorem primary_sessions_never_overlap_lunch_witness :
    isLunchTime defaultConfig "09:00" "10:00" = false :=
  primary_sessions_never_overlap_lunch defaultConfig [lunchW] "2025-12-01"
    (ScheduledSession.mk lunchW "slot_1" "09:00" "10:00") (by decide)

/-- C1 counterexample: running the full daily pipeline on three sessions —
09:00–10:05, 10:20–10:50 and 10:50–11:20 with lunch 11:00–13:00 — leaves a
backup session (the 10:50–11:20 one) in a slot's final backup pool even
though its interval overlaps the lunch window: slot 2's primary is dropped
by the buffered conflict with slot 1's, and backups are validated only
against surviving primaries, never against lunch. -/
theorem backup_overlaps_lunch_counterexample :
    ((createDailySchedule defaultConfig [cexS1, cexS2, cexS3] "2025-12-01").backupSessions.any
      fun kv => kv.2.any fun b =>
        isLunchTime defaultConfig (getStr b.session.startTime) (getStr b.session.endTime)) = true
    ∧ ((createDailySchedule defaultConfig [cexS1, cexS2, cexS3] "2025-12-01").backupSessions.any
      fun kv => kv.2.any fun b => b.session == cexS3) = true
    ∧ isLunchTime defaultConfig "10:50" "11:20" = true := by
  refine ⟨by decide, by decide, by decide⟩

end ReInvent
